import Mathlib

/-!
Verification of the Schema-Registry integration client
(`src/examples/latency_tick_store_integration.cpp`).

The embedding models the `SchemaRegistryClient` class: its JSON documents
(nlohmann::json values), the TTL cache held in the two maps
`schema_cache_` / `cache_timestamps_`, the `fetch_schema` operation, the
response-processing stage, the background eviction sweep inside
`monitor_schema_updates`, the `create_arrow_schema` translator and the
`get_stats` snapshot.  Machine times (`std::chrono::steady_clock`
time points and durations, in seconds) are modelled as integers; JSON
objects are association lists whose list order represents the map's
iteration order (nlohmann's object type is an ordered `std::map`, so
iteration is in key-sorted order; the theorems quantify over all lists,
which includes every reachable map state).
-/

namespace SchemaRegistry

/-- JSON values as stored by nlohmann::json: null, booleans, numbers,
strings, arrays, and objects (association lists in iteration order). -/
inductive Json where
  | null : Json
  | bool (b : Bool) : Json
  | num (n : Int) : Json
  | str (s : String) : Json
  | arr (xs : List Json) : Json
  | obj (kvs : List (String × Json)) : Json

/-- Association-list lookup: the value of the first pair whose key matches
(maps have unique keys, so this is the map lookup `find`). -/
def alookup {α : Type} : List (String × α) → String → Option α
  | [], _ => none
  | p :: rest, k => if p.1 = k then some p.2 else alookup rest k

/-- Association-list insert-or-overwrite, the semantics of
`map[key] = value` on a map that may or may not contain the key: an
existing entry is replaced in place, a new key is appended. -/
def aInsert {α : Type} : List (String × α) → String → α → List (String × α)
  | [], k, v => [(k, v)]
  | p :: rest, k, v => if p.1 = k then (k, v) :: rest else p :: aInsert rest k v

/-- Association-list erase, the semantics of `map.erase(key)`: removes the
entry with the given key (the first occurrence; a map has at most one). -/
def aErase {α : Type} : List (String × α) → String → List (String × α)
  | [], _ => []
  | p :: rest, k => if p.1 = k then rest else p :: aErase rest k

/-- nlohmann `contains` + const `operator[]` chain
`j.contains("arrow") && j["arrow"].contains("fields")` followed by
`j["arrow"]["fields"]` (source lines 130-131): yields the native field
array when both keys are present, `none` otherwise. -/
def arrowFieldsOf (j : Json) : Option Json :=
  match j with
  | .obj kvs =>
    match alookup kvs "arrow" with
    | some (.obj akvs) => alookup akvs "fields"
    | _ => none
  | _ => none

/-- Failure modes of the translator, mirroring how the C++ source can fail:
`undefinedBehavior` models const `operator[]` on a missing key (documented
UB in nlohmann::json), `typeError` models a thrown `json::type_error`
(302/305/306), `invalidIterator` models `it.key()` thrown on a
non-object iteration (`invalid_iterator.302`). -/
inductive TransError where
  | undefinedBehavior : TransError
  | typeError : TransError
  | invalidIterator : TransError
deriving DecidableEq

/-- Const `operator[](key)` on a `const json&`: defined only on an object
that contains the key; a missing key (or a non-object receiver) is
undefined behavior in the source. -/
def jGetConst (j : Json) (k : String) : Except TransError Json :=
  match j with
  | .obj kvs =>
    match alookup kvs k with
    | some v => .ok v
    | none => .error .undefinedBehavior
  | _ => .error .undefinedBehavior

/-- Non-const `operator[](key)`: on an object returns the stored value or
inserts-and-returns null when missing; on null converts the receiver to an
object and returns null; on any other kind throws `type_error.305`
(modelled as `none`). -/
def jGetMutOpt (j : Json) (k : String) : Option Json :=
  match j with
  | .obj kvs => some ((alookup kvs k).getD .null)
  | .null => some .null
  | _ => none

/-- Conversion `std::string s = j;`: succeeds only on a JSON string,
otherwise throws `type_error.302`. -/
def asString (j : Json) : Except TransError String :=
  match j with
  | .str s => .ok s
  | _ => .error .typeError

/-- nlohmann `j.value(key, default)` at string type (source line 150):
returns the default when the key is absent, the stored string when present
and a string, and throws a type error otherwise (also on a non-object
receiver). -/
def valueStr (j : Json) (key dflt : String) : Except TransError String :=
  match j with
  | .obj kvs =>
    match alookup kvs key with
    | none => .ok dflt
    | some (.str s) => .ok s
    | some _ => .error .typeError
  | _ => .error .typeError

/-- Range-for over a nlohmann::json value, yielding values: an array or an
object yields its elements/values in order, null yields the empty range,
and a primitive yields itself once. -/
def jIterVals (j : Json) : List Json :=
  match j with
  | .obj kvs => kvs.map Prod.snd
  | .arr xs => xs
  | .null => []
  | v => [v]

/-- Arrow time units used by the translator. -/
inductive TimeUnit where
  | second : TimeUnit
  | micro : TimeUnit
  | nano : TimeUnit
deriving DecidableEq

/-- The Arrow data types the translator can produce. -/
inductive ArrowType where
  | int32 : ArrowType
  | int64 : ArrowType
  | float32 : ArrowType
  | float64 : ArrowType
  | utf8 : ArrowType
  | timestampT (u : TimeUnit) : ArrowType
deriving DecidableEq

/-- An Arrow field: `arrow::field(name, type)`. -/
structure ArrowField where
  name : String
  type : ArrowType
deriving DecidableEq

/-- The native type-name dispatch of `create_arrow_schema`
(source lines 139-161): the chained string comparisons on `type_name`,
including the timestamp branch that reads `field_type.value("unit", "us")`
and maps "us"/"ns"/other to micro/nano/second; every unrecognized name
falls through to utf8. -/
def mapTypeName (type_name : String) (field_type : Json) : Except TransError ArrowType :=
  if type_name = "int32" then .ok .int32
  else if type_name = "int64" then .ok .int64
  else if type_name = "float32" then .ok .float32
  else if type_name = "float64" then .ok .float64
  else if type_name = "utf8" then .ok .utf8
  else if type_name = "timestamp" then
    match valueStr field_type "unit" "us" with
    | .error e => .error e
    | .ok unit =>
      if unit = "us" then .ok (.timestampT .micro)
      else if unit = "ns" then .ok (.timestampT .nano)
      else .ok (.timestampT .second)
  else .ok .utf8

/-- One iteration of the native-field loop (source lines 132-164): read
`field["name"]`, `field["type"]`, `field_type["name"]` (const accesses),
dispatch the type name, and build the Arrow field. -/
def translateNativeField (field : Json) : Except TransError ArrowField :=
  match jGetConst field "name" with
  | .error e => .error e
  | .ok nameJ =>
    match asString nameJ with
    | .error e => .error e
    | .ok field_name =>
      match jGetConst field "type" with
      | .error e => .error e
      | .ok field_type =>
        match jGetConst field_type "name" with
        | .error e => .error e
        | .ok tnameJ =>
          match asString tnameJ with
          | .error e => .error e
          | .ok type_name =>
            match mapTypeName type_name field_type with
            | .error e => .error e
            | .ok ty => .ok ⟨field_name, ty⟩

/-- The native-field loop over the `arrow.fields` range: fields are pushed
in iteration order; the first failure aborts the whole translation (a C++
throw unwinds out of the loop). -/
def translateFieldList : List Json → Except TransError (List ArrowField)
  | [] => .ok []
  | f :: rest =>
    match translateNativeField f with
    | .error e => .error e
    | .ok d =>
      match translateFieldList rest with
      | .error e => .error e
      | .ok ds => .ok (d :: ds)

/-- The generic-kind dispatch of the properties fallback
(source lines 175-183): integer/number/string map to int64/float64/utf8,
anything else to utf8. -/
def mapPropKind (json_type : String) : ArrowType :=
  if json_type = "integer" then .int64
  else if json_type = "number" then .float64
  else if json_type = "string" then .utf8
  else .utf8

/-- One iteration of the properties loop (source lines 168-186): the key
becomes the field name; `field_schema` is a non-const copy, so
`field_schema["type"]` inserts null when missing, and the string
conversion then throws; the kind is dispatched through `mapPropKind`. -/
def translateProp (kv : String × Json) : Except TransError ArrowField :=
  match jGetMutOpt kv.2 "type" with
  | none => .error .typeError
  | some typeJ =>
    match asString typeJ with
    | .error e => .error e
    | .ok json_type => .ok ⟨kv.1, mapPropKind json_type⟩

/-- The properties loop over the map's entries in iteration order; the
first failure aborts the translation. -/
def translatePropList : List (String × Json) → Except TransError (List ArrowField)
  | [] => .ok []
  | kv :: rest =>
    match translateProp kv with
    | .error e => .error e
    | .ok d =>
      match translatePropList rest with
      | .error e => .error e
      | .ok ds => .ok (d :: ds)

/-- Iterating `properties` with `it.key()` (source lines 168-169): an
object iterates its entries; null has an empty range; an array or a
primitive reaches `it.key()` on its first element and throws
`invalid_iterator.302` (an empty array never enters the loop body). -/
def translateProperties (props : Json) : Except TransError (List ArrowField) :=
  match props with
  | .obj kvs => translatePropList kvs
  | .null => .ok []
  | .arr [] => .ok []
  | .arr (_ :: _) => .error .invalidIterator
  | _ => .error .invalidIterator

/-- `SchemaRegistryClient::create_arrow_schema` (source lines 126-190):
if the document has `arrow.fields`, translate that array exclusively;
otherwise read `schema_json["properties"]` (const access — undefined
behavior when absent) and translate the property map. -/
def create_arrow_schema (schema_json : Json) : Except TransError (List ArrowField) :=
  match arrowFieldsOf schema_json with
  | some fieldsJ => translateFieldList (jIterVals fieldsJ)
  | none =>
    match jGetConst schema_json "properties" with
    | .error e => .error e
    | .ok props => translateProperties props

/-- The error outcomes of a schema fetch, mirroring the exceptions thrown
by `fetch_schema` (source lines 76-116): curl initialization failure,
`curl_easy_perform` failure, a non-200 HTTP status, a `json::parse`
failure, and the `type_error` thrown by `response_json["schema"]` on a
non-object non-null body. -/
inductive FetchError where
  | curlInitFailure : FetchError
  | transportFailure : FetchError
  | httpStatus (code : Int) : FetchError
  | parseFailure : FetchError
  | typeFailure : FetchError
deriving DecidableEq

/-- The outcome of the external transport round-trip, at the boundary this
embedding takes as given: curl init failed, `curl_easy_perform` failed, or
a response arrived with an HTTP status code and a body summarized by its
parse result (`none` when `json::parse` would throw, `some j` when the
body parses to `j`; the byte-level parser is nlohmann's, external to the
repository). -/
inductive NetOutcome where
  | initFail : NetOutcome
  | performFail : NetOutcome
  | response (httpCode : Int) (parsedBody : Option Json) : NetOutcome

/-- The response-processing stage of `fetch_schema` (source lines 76-116,
after the cache miss): curl init failure and transport failure throw;
a non-200 status throws; an unparsable body makes `json::parse` throw;
otherwise `response_json["schema"]` is read with the non-const
`operator[]`, which yields null (not an error) when the field is absent
and throws only on a non-object non-null body. -/
def processResponse (net : NetOutcome) : Except FetchError Json :=
  match net with
  | .initFail => .error .curlInitFailure
  | .performFail => .error .transportFailure
  | .response code body =>
    if code ≠ 200 then .error (.httpStatus code)
    else
      match body with
      | none => .error .parseFailure
      | some j =>
        match jGetMutOpt j "schema" with
        | none => .error .typeFailure
        | some schema_data => .ok schema_data

/-- The mutable state of a `SchemaRegistryClient`: the two cache maps and
the three statistics counters (source lines 30-39). -/
structure ClientState where
  schemaCache : List (String × Json)
  cacheTimestamps : List (String × Int)
  cacheHits : Nat
  cacheMisses : Nat
  schemaFetches : Nat

/-- The cache TTL `cache_ttl_{600}` in seconds (source line 32). -/
def cache_ttl : Int := 600

/-- The cache key computation (source line 60):
`schema_id + (version.empty() ? "" : ":" + version)`. -/
def cache_key (schema_id version : String) : String :=
  schema_id ++ (if version = "" then "" else ":" ++ version)

/-- The read `cache_timestamps_[cache_key]` (source line 65): non-const
`operator[]` on the map returns the stored time point, or
default-constructs one (the epoch, i.e. 0) and inserts it when the key is
absent. Returns the value read and the possibly-extended map. -/
def tsRead (ts : List (String × Int)) (k : String) : Int × List (String × Int) :=
  match alookup ts k with
  | some t => (t, ts)
  | none => (0, ts ++ [(k, 0)])

/-- The miss path of `fetch_schema` (source lines 72-122): increment
`cache_misses_` and `schema_fetches_`, perform the network round-trip and
response processing; on success store the document under the key with the
`now` captured at entry and return it; on failure the exception
propagates with the cache maps untouched. -/
def doFetch (s : ClientState) (now : Int) (net : NetOutcome) (key : String) :
    Except FetchError Json × ClientState :=
  let s1 : ClientState :=
    { s with cacheMisses := s.cacheMisses + 1, schemaFetches := s.schemaFetches + 1 }
  match processResponse net with
  | .error e => (.error e, s1)
  | .ok schema_data =>
    (.ok schema_data,
     { s1 with
       schemaCache := aInsert s1.schemaCache key schema_data,
       cacheTimestamps := aInsert s1.cacheTimestamps key now })

/-- `SchemaRegistryClient::fetch_schema` (source lines 58-123): compute the
cache key and `now`; if the key is in `schema_cache_` and
`now - cache_timestamps_[key] < cache_ttl_`, count a hit and return the
cached document; otherwise count a miss and a fetch and go to the
network. The transport outcome is the `net` parameter. -/
def fetch_schema (s : ClientState) (now : Int) (net : NetOutcome)
    (schema_id version : String) : Except FetchError Json × ClientState :=
  let key := cache_key schema_id version
  match alookup s.schemaCache key with
  | some doc =>
    let r := tsRead s.cacheTimestamps key
    let s1 : ClientState := { s with cacheTimestamps := r.2 }
    if now - r.1 < cache_ttl then
      (.ok doc, { s1 with cacheHits := s1.cacheHits + 1 })
    else doFetch s1 now net key
  | none => doFetch s now net key

/-- The expired-key collection of the eviction sweep (source lines
217-224): every key whose entry satisfies `now - pair.second > cache_ttl_`
(note: strictly greater). -/
def expiredKeys (ts : List (String × Int)) (now : Int) : List String :=
  (ts.filter (fun p => now - p.2 > cache_ttl)).map Prod.fst

/-- Erasing a list of keys from a map, one `map.erase(key)` per key
(source lines 226-229). -/
def eraseKeys {α : Type} (l : List (String × α)) (ks : List String) :
    List (String × α) :=
  ks.foldl aErase l

/-- One eviction sweep of `monitor_schema_updates` (source lines 216-229):
collect the keys whose timestamp age exceeds the TTL, then erase each from
both `schema_cache_` and `cache_timestamps_`. -/
def sweep_expired (cache : List (String × Json)) (ts : List (String × Int))
    (now : Int) : List (String × Json) × List (String × Int) :=
  (eraseKeys cache (expiredKeys ts now), eraseKeys ts (expiredKeys ts now))

/-- The statistics snapshot (source lines 239-247). The hit-rate field
models the JSON value of `cache_hit_ratio`. -/
structure Stats where
  cache_hits : Nat
  cache_misses : Nat
  schema_fetches : Nat
  cache_size : Nat
  cache_hit_rate : Option ℚ

/-- The hit-rate computation `cache_hits_ / (double)(cache_hits_ +
cache_misses_)` (source line 245): a plain double division with no guard.
When `hits + misses = 0` the C++ expression is `0.0 / 0.0`, which is IEEE
NaN — modelled as `none`; otherwise the real quotient, as a rational. -/
def hitRate (hits misses : Nat) : Option ℚ :=
  if hits + misses = 0 then none
  else some ((hits : ℚ) / ((hits : ℚ) + (misses : ℚ)))

/-- `SchemaRegistryClient::get_stats` (source lines 239-247). -/
def get_stats (s : ClientState) : Stats :=
  { cache_hits := s.cacheHits
    cache_misses := s.cacheMisses
    schema_fetches := s.schemaFetches
    cache_size := s.schemaCache.length
    cache_hit_rate := hitRate s.cacheHits s.cacheMisses }

/-- The condition under which `fetch_schema` takes the miss path: the key
is absent from `schema_cache_`, or the stored timestamp is at least one
TTL old. -/
def missRead (s : ClientState) (key : String) (now : Int) : Prop :=
  alookup s.schemaCache key = none ∨
  ∃ t, alookup s.cacheTimestamps key = some t ∧ cache_ttl ≤ now - t

/-- Well-formedness of one native field entry: an object whose "name" is a
string and whose "type" is an object with a string "name" and a "unit"
that, when present, is a string.  On such entries the source loop body
cannot reach undefined behavior or throw. -/
def wfNativeField (f : Json) : Bool :=
  match f with
  | .obj kvs =>
    (match alookup kvs "name" with
     | some (.str _) => true
     | _ => false) &&
    (match alookup kvs "type" with
     | some (.obj tkvs) =>
       (match alookup tkvs "name" with
        | some (.str _) => true
        | _ => false) &&
       (match alookup tkvs "unit" with
        | none => true
        | some (.str _) => true
        | _ => false)
     | _ => false)
  | _ => false

/-- Well-formedness of one property entry: its value's "type", read with
the non-const indexing of the source, is a string. -/
def wfProp (kv : String × Json) : Bool :=
  match jGetMutOpt kv.2 "type" with
  | some (.str _) => true
  | _ => false

/-! Support lemmas about association lists, erasure and the expired-key
collection. -/

theorem alookup_eq_none {α : Type} {l : List (String × α)} {k : String} :
    alookup l k = none ↔ ∀ p ∈ l, p.1 ≠ k := by
  induction l with
  | nil => simp [alookup]
  | cons p rest ih =>
    by_cases hp : p.1 = k
    · simp [alookup, hp]
    · simp [alookup, hp, ih]

theorem mem_of_alookup {α : Type} {l : List (String × α)} {k : String} {v : α}
    (h : alookup l k = some v) : (k, v) ∈ l := by
  induction l with
  | nil => simp [alookup] at h
  | cons p rest ih =>
    by_cases hp : p.1 = k
    · simp [alookup, hp] at h
      have hpv : p = (k, v) := Prod.ext hp h
      exact hpv ▸ List.mem_cons_self p rest
    · simp [alookup, hp] at h
      exact List.mem_cons_of_mem p (ih h)

theorem alookup_of_mem_nodup {α : Type} {l : List (String × α)} {k : String} {v : α}
    (hN : (l.map Prod.fst).Nodup) (h : (k, v) ∈ l) : alookup l k = some v := by
  induction l with
  | nil => simp at h
  | cons p rest ih =>
    rcases List.mem_cons.mp h with heq | hmem
    · subst heq; simp [alookup]
    · have hp : p.1 ≠ k := by
        intro hk
        have : k ∈ rest.map Prod.fst := List.mem_map.mpr ⟨(k, v), hmem, rfl⟩
        exact (List.nodup_cons.mp (by simpa using hN)).1 (hk ▸ this)
      have hrest : (rest.map Prod.fst).Nodup := (List.nodup_cons.mp (by simpa using hN)).2
      simp [alookup, hp, ih hrest hmem]

theorem aErase_sublist {α : Type} (l : List (String × α)) (k : String) :
    List.Sublist (aErase l k) l := by
  induction l with
  | nil => simp [aErase]
  | cons p rest ih =>
    show List.Sublist (if p.1 = k then rest else p :: aErase rest k) (p :: rest)
    by_cases hp : p.1 = k
    · rw [if_pos hp]
      exact List.sublist_cons_self p rest
    · rw [if_neg hp]
      exact List.Sublist.cons₂ p ih

theorem alookup_aErase_of_ne {α : Type} (l : List (String × α)) {kk k : String}
    (h : kk ≠ k) : alookup (aErase l kk) k = alookup l k := by
  induction l with
  | nil => rfl
  | cons p rest ih =>
    show alookup (if p.1 = kk then rest else p :: aErase rest kk) k = _
    by_cases hp : p.1 = kk
    · rw [if_pos hp]
      have hpk : ¬ p.1 = k := fun hk => h (hp.symm.trans hk)
      show _ = if p.1 = k then some p.2 else alookup rest k
      rw [if_neg hpk]
    · rw [if_neg hp]
      show (if p.1 = k then some p.2 else alookup (aErase rest kk) k) =
        (if p.1 = k then some p.2 else alookup rest k)
      rw [ih]

theorem alookup_aErase_self {α : Type} {l : List (String × α)}
    (hN : (l.map Prod.fst).Nodup) (k : String) : alookup (aErase l k) k = none := by
  induction l with
  | nil => rfl
  | cons p rest ih =>
    have hhead : p.1 ∉ rest.map Prod.fst := (List.nodup_cons.mp (by simpa using hN)).1
    have hrest : (rest.map Prod.fst).Nodup := (List.nodup_cons.mp (by simpa using hN)).2
    by_cases hp : p.1 = k
    · simp [aErase, hp]
      exact alookup_eq_none.mpr fun q hq hqk => hhead (by
        rw [hp]
        exact hqk ▸ List.mem_map.mpr ⟨q, hq, rfl⟩)
    · simp [aErase, hp, alookup, ih hrest]

theorem alookup_none_of_sublist {α : Type} {la lb : List (String × α)} {k : String}
    (hs : List.Sublist la lb) (h : alookup lb k = none) : alookup la k = none :=
  alookup_eq_none.mpr fun p hp => alookup_eq_none.mp h p (hs.mem hp)

theorem nodup_keys_aErase {α : Type} {l : List (String × α)}
    (hN : (l.map Prod.fst).Nodup) (k : String) :
    ((aErase l k).map Prod.fst).Nodup :=
  hN.sublist (List.Sublist.map Prod.fst (aErase_sublist l k))

theorem alookup_eraseKeys_of_not_mem {α : Type} (l : List (String × α))
    {ks : List String} {k : String} (h : k ∉ ks) :
    alookup (eraseKeys l ks) k = alookup l k := by
  induction ks generalizing l with
  | nil => rfl
  | cons kk ks ih =>
    have h1 : kk ≠ k := fun he => h (he ▸ List.mem_cons_self kk ks)
    have h2 : k ∉ ks := fun hm => h (List.mem_cons_of_mem kk hm)
    show alookup (eraseKeys (aErase l kk) ks) k = alookup l k
    rw [ih (aErase l kk) h2, alookup_aErase_of_ne l h1]

theorem alookup_eraseKeys_none {α : Type} {l : List (String × α)}
    {ks : List String} {k : String} (hN : (l.map Prod.fst).Nodup)
    (h : alookup l k = none ∨ k ∈ ks) : alookup (eraseKeys l ks) k = none := by
  induction ks generalizing l with
  | nil =>
    rcases h with h | h
    · exact h
    · simp at h
  | cons kk ks ih =>
    show alookup (eraseKeys (aErase l kk) ks) k = none
    have hN' := nodup_keys_aErase hN kk
    rcases h with h | h
    · exact ih hN' (Or.inl (alookup_none_of_sublist (aErase_sublist l kk) h))
    · rcases List.mem_cons.mp h with heq | hmem
      · exact ih hN' (Or.inl (heq ▸ alookup_aErase_self hN k))
      · exact ih hN' (Or.inr hmem)

theorem mem_expiredKeys_iff {ts : List (String × Int)} {now : Int} {k : String} :
    k ∈ expiredKeys ts now ↔ ∃ p ∈ ts, p.1 = k ∧ cache_ttl < now - p.2 := by
  constructor
  · intro h
    obtain ⟨p, hpf, hpk⟩ := List.mem_map.mp h
    obtain ⟨hpts, hcond⟩ := List.mem_filter.mp hpf
    exact ⟨p, hpts, hpk, by simpa using hcond⟩
  · rintro ⟨p, hpts, hpk, hcond⟩
    exact List.mem_map.mpr ⟨p, List.mem_filter.mpr ⟨hpts, by simpa using hcond⟩, hpk⟩

theorem mem_expiredKeys {ts : List (String × Int)} {now : Int} {k : String} {t : Int}
    (h : alookup ts k = some t) (hexp : cache_ttl < now - t) :
    k ∈ expiredKeys ts now :=
  mem_expiredKeys_iff.mpr ⟨(k, t), mem_of_alookup h, rfl, hexp⟩

theorem not_mem_expiredKeys {ts : List (String × Int)} {now : Int} {k : String} {t : Int}
    (hN : (ts.map Prod.fst).Nodup) (h : alookup ts k = some t)
    (hle : now - t ≤ cache_ttl) : k ∉ expiredKeys ts now := by
  intro hmem
  obtain ⟨p, hp, hpk, hpexp⟩ := mem_expiredKeys_iff.mp hmem
  have hp' : (k, p.2) ∈ ts := by
    have : p = (k, p.2) := Prod.ext hpk rfl
    exact this ▸ hp
  have := alookup_of_mem_nodup hN hp'
  rw [h] at this
  have ht : p.2 = t := by injection this.symm
  rw [ht] at hpexp
  omega

theorem not_mem_expiredKeys_of_none {ts : List (String × Int)} {now : Int} {k : String}
    (h : alookup ts k = none) : k ∉ expiredKeys ts now := by
  intro hmem
  obtain ⟨p, hp, hpk, _⟩ := mem_expiredKeys_iff.mp hmem
  exact alookup_eq_none.mp h p hp hpk

/-! Support lemmas about the fetch path. -/

theorem fetch_schema_hit (s : ClientState) (now : Int) (net : NetOutcome)
    (schema_id version : String) (doc : Json) (t : Int)
    (hd : alookup s.schemaCache (cache_key schema_id version) = some doc)
    (ht : alookup s.cacheTimestamps (cache_key schema_id version) = some t)
    (hfresh : now - t < cache_ttl) :
    fetch_schema s now net schema_id version =
      (.ok doc, { s with cacheHits := s.cacheHits + 1 }) := by
  simp only [fetch_schema, tsRead, hd, ht]
  simp [hfresh]

theorem fetch_schema_miss (s : ClientState) (now : Int) (net : NetOutcome)
    (schema_id version : String)
    (h : missRead s (cache_key schema_id version) now) :
    fetch_schema s now net schema_id version =
      doFetch s now net (cache_key schema_id version) := by
  cases hd : alookup s.schemaCache (cache_key schema_id version) with
  | none => simp only [fetch_schema, hd]
  | some doc =>
    rcases h with h | ⟨t, ht, hstale⟩
    · rw [hd] at h
      exact Option.noConfusion h
    · simp only [fetch_schema, tsRead, hd, ht]
      simp [not_lt.mpr hstale]

theorem doFetch_fst (s : ClientState) (now : Int) (net : NetOutcome) (key : String) :
    (doFetch s now net key).1 = processResponse net := by
  unfold doFetch
  cases processResponse net <;> rfl

theorem doFetch_counters (s : ClientState) (now : Int) (net : NetOutcome) (key : String) :
    (doFetch s now net key).2.cacheMisses = s.cacheMisses + 1 ∧
    (doFetch s now net key).2.schemaFetches = s.schemaFetches + 1 := by
  unfold doFetch
  cases processResponse net <;> exact ⟨rfl, rfl⟩

/-! Support lemmas about the translator loops. -/

theorem translateFieldList_map_ok (fs : List Json) (g : Json → ArrowField)
    (h : ∀ x ∈ fs, translateNativeField x = .ok (g x)) :
    translateFieldList fs = .ok (fs.map g) := by
  induction fs with
  | nil => rfl
  | cons f rest ih =>
    have hf := h f (List.mem_cons_self f rest)
    have hr := ih fun x hx => h x (List.mem_cons_of_mem f hx)
    simp [translateFieldList, hf, hr]

theorem translatePropList_map_ok (ps : List (String × Json)) (g : String × Json → ArrowField)
    (h : ∀ x ∈ ps, translateProp x = .ok (g x)) :
    translatePropList ps = .ok (ps.map g) := by
  induction ps with
  | nil => rfl
  | cons p rest ih =>
    have hp := h p (List.mem_cons_self p rest)
    have hr := ih fun x hx => h x (List.mem_cons_of_mem p hx)
    simp [translatePropList, hp, hr]

theorem mapTypeName_ok_of_unit_wf (type_name : String) (tkvs : List (String × Json))
    (h : (match alookup tkvs "unit" with
          | none => true
          | some (.str _) => true
          | _ => false) = true) :
    ∃ ty, mapTypeName type_name (Json.obj tkvs) = .ok ty := by
  have hv : ∃ u, valueStr (Json.obj tkvs) "unit" "us" = .ok u := by
    cases hu : alookup tkvs "unit" with
    | none => exact ⟨"us", by simp [valueStr, hu]⟩
    | some v =>
      cases v with
      | str s => exact ⟨s, by simp [valueStr, hu]⟩
      | null => rw [hu] at h; simp at h
      | bool b => rw [hu] at h; simp at h
      | num n => rw [hu] at h; simp at h
      | arr xs => rw [hu] at h; simp at h
      | obj kvs2 => rw [hu] at h; simp at h
  obtain ⟨u, hu⟩ := hv
  unfold mapTypeName
  by_cases h1 : type_name = "int32"
  · exact ⟨.int32, by rw [if_pos h1]⟩
  by_cases h2 : type_name = "int64"
  · exact ⟨.int64, by rw [if_neg h1, if_pos h2]⟩
  by_cases h3 : type_name = "float32"
  · exact ⟨.float32, by rw [if_neg h1, if_neg h2, if_pos h3]⟩
  by_cases h4 : type_name = "float64"
  · exact ⟨.float64, by rw [if_neg h1, if_neg h2, if_neg h3, if_pos h4]⟩
  by_cases h5 : type_name = "utf8"
  · exact ⟨.utf8, by rw [if_neg h1, if_neg h2, if_neg h3, if_neg h4, if_pos h5]⟩
  by_cases h6 : type_name = "timestamp"
  · rw [if_neg h1, if_neg h2, if_neg h3, if_neg h4, if_neg h5, if_pos h6, hu]
    by_cases hus : u = "us"
    · exact ⟨.timestampT .micro, by simp [hus]⟩
    by_cases hns : u = "ns"
    · exact ⟨.timestampT .nano, by simp [hus, hns]⟩
    · exact ⟨.timestampT .second, by simp [hus, hns]⟩
  · exact ⟨.utf8, by
      rw [if_neg h1, if_neg h2, if_neg h3, if_neg h4, if_neg h5, if_neg h6]⟩

theorem translateNativeField_ok_of_wf (f : Json) (h : wfNativeField f = true) :
    ∃ d, translateNativeField f = .ok d := by
  cases f with
  | null => simp [wfNativeField] at h
  | bool b => simp [wfNativeField] at h
  | num n => simp [wfNativeField] at h
  | str s => simp [wfNativeField] at h
  | arr xs => simp [wfNativeField] at h
  | obj kvs =>
    unfold wfNativeField at h
    rw [Bool.and_eq_true] at h
    obtain ⟨hname, htype⟩ := h
    cases hn : alookup kvs "name" with
    | none => rw [hn] at hname; simp at hname
    | some nv =>
      rw [hn] at hname
      cases nv with
      | str fname =>
        cases ht : alookup kvs "type" with
        | none => rw [ht] at htype; simp at htype
        | some tv =>
          rw [ht] at htype
          cases tv with
          | obj tkvs =>
            rw [Bool.and_eq_true] at htype
            obtain ⟨htn, hunit⟩ := htype
            cases htname : alookup tkvs "name" with
            | none => rw [htname] at htn; simp at htn
            | some tnv =>
              rw [htname] at htn
              cases tnv with
              | str tname =>
                obtain ⟨ty, hty⟩ := mapTypeName_ok_of_unit_wf tname tkvs hunit
                refine ⟨⟨fname, ty⟩, ?_⟩
                simp only [translateNativeField, jGetConst, asString, hn, ht, htname, hty]
              | null => simp at htn
              | bool b => simp at htn
              | num n => simp at htn
              | arr xs => simp at htn
              | obj kvs2 => simp at htn
          | null => simp at htype
          | bool b => simp at htype
          | num n => simp at htype
          | str s2 => simp at htype
          | arr xs => simp at htype
      | null => simp at hname
      | bool b => simp at hname
      | num n => simp at hname
      | arr xs => simp at hname
      | obj kvs2 => simp at hname

theorem translateProp_ok_of_wf (kv : String × Json) (h : wfProp kv = true) :
    ∃ d, translateProp kv = .ok d := by
  unfold wfProp at h
  cases hg : jGetMutOpt kv.2 "type" with
  | none => rw [hg] at h; simp at h
  | some tv =>
    rw [hg] at h
    cases tv with
    | str s =>
      refine ⟨⟨kv.1, mapPropKind s⟩, ?_⟩
      simp only [translateProp, asString, hg]
    | null => simp at h
    | bool b => simp at h
    | num n => simp at h
    | arr xs => simp at h
    | obj kvs2 => simp at h

theorem translateFieldList_ok_of_wf (fs : List Json)
    (h : ∀ x ∈ fs, wfNativeField x = true) :
    ∃ ds, translateFieldList fs = .ok ds := by
  induction fs with
  | nil => exact ⟨[], rfl⟩
  | cons f rest ih =>
    obtain ⟨d, hd⟩ := translateNativeField_ok_of_wf f (h f (List.mem_cons_self f rest))
    obtain ⟨ds, hds⟩ := ih fun x hx => h x (List.mem_cons_of_mem f hx)
    exact ⟨d :: ds, by simp [translateFieldList, hd, hds]⟩

theorem translatePropList_ok_of_wf (ps : List (String × Json))
    (h : ∀ x ∈ ps, wfProp x = true) :
    ∃ ds, translatePropList ps = .ok ds := by
  induction ps with
  | nil => exact ⟨[], rfl⟩
  | cons p rest ih =>
    obtain ⟨d, hd⟩ := translateProp_ok_of_wf p (h p (List.mem_cons_self p rest))
    obtain ⟨ds, hds⟩ := ih fun x hx => h x (List.mem_cons_of_mem p hx)
    exact ⟨d :: ds, by simp [translatePropList, hd, hds]⟩

/-! Claim theorems. -/

/-- C1: a `fetch_schema` lookup that finds a cached entry of age < TTL
(TTL = 600 seconds) increments `cache_hits_` and returns the exact
document last stored for the key; a lookup with no entry, or whose entry
is at least TTL old, increments `cache_misses_` and `schema_fetches_` and
delegates to the fetcher; on fetch success the document is stored under
the key with the current timestamp and returned. -/
theorem fetch_schema_cache_correct (s : ClientState) (now : Int) (net : NetOutcome)
    (schema_id version : String) :
    cache_ttl = 600
    ∧ (∀ doc t, alookup s.schemaCache (cache_key schema_id version) = some doc →
        alookup s.cacheTimestamps (cache_key schema_id version) = some t →
        now - t < cache_ttl →
        fetch_schema s now net schema_id version =
          (.ok doc, { s with cacheHits := s.cacheHits + 1 }))
    ∧ (missRead s (cache_key schema_id version) now →
        (fetch_schema s now net schema_id version).1 = processResponse net
        ∧ (fetch_schema s now net schema_id version).2.cacheMisses = s.cacheMisses + 1
        ∧ (fetch_schema s now net schema_id version).2.schemaFetches = s.schemaFetches + 1)
    ∧ (∀ doc, missRead s (cache_key schema_id version) now →
        processResponse net = .ok doc →
        fetch_schema s now net schema_id version =
          (.ok doc,
           { s with
             cacheMisses := s.cacheMisses + 1,
             schemaFetches := s.schemaFetches + 1,
             schemaCache := aInsert s.schemaCache (cache_key schema_id version) doc,
             cacheTimestamps :=
               aInsert s.cacheTimestamps (cache_key schema_id version) now })) := by
  refine ⟨rfl, ?_, ?_, ?_⟩
  · intro doc t hd ht hfresh
    exact fetch_schema_hit s now net schema_id version doc t hd ht hfresh
  · intro hm
    rw [fetch_schema_miss s now net schema_id version hm]
    exact ⟨doFetch_fst _ _ _ _, (doFetch_counters _ _ _ _).1, (doFetch_counters _ _ _ _).2⟩
  · intro doc hm hok
    rw [fetch_schema_miss s now net schema_id version hm]
    simp [doFetch, hok]

/-- C1 witness: a concrete fresh hit and a concrete miss with a successful
fetch-and-store, both obtained from `fetch_schema_cache_correct`. -/
theorem fetch_schema_cache_correct_witness :
    fetch_schema ⟨[("a", Json.bool true)], [("a", 0)], 0, 0, 0⟩ 5 NetOutcome.initFail "a" "" =
      (.ok (Json.bool true), ⟨[("a", Json.bool true)], [("a", 0)], 1, 0, 0⟩) ∧
    fetch_schema ⟨[], [], 0, 0, 0⟩ 5
        (NetOutcome.response 200 (some (Json.obj [("schema", Json.num 7)]))) "a" "" =
      (.ok (Json.num 7), ⟨[("a", Json.num 7)], [("a", 5)], 0, 1, 1⟩) := by
  constructor
  · exact (fetch_schema_cache_correct ⟨[("a", Json.bool true)], [("a", 0)], 0, 0, 0⟩ 5
      NetOutcome.initFail "a" "").2.1 (Json.bool true) 0 rfl rfl (by decide)
  · exact (fetch_schema_cache_correct ⟨[], [], 0, 0, 0⟩ 5
      (NetOutcome.response 200 (some (Json.obj [("schema", Json.num 7)]))) "a" "").2.2.2
      (Json.num 7) (Or.inl rfl) rfl

/-- C2 counterexample: an entry whose age is exactly the TTL (age ≥ TTL)
is NOT removed by the sweep — the source removes only at age strictly
greater than the TTL (`now - pair.second > cache_ttl_`), so the claim
"every entry with age ≥ ttl is removed" fails at age = ttl. -/
theorem sweep_boundary_entry_kept :
    (600 : Int) - 0 ≥ cache_ttl ∧
    alookup (sweep_expired [("k", Json.null)] [("k", 0)] 600).1 "k" = some Json.null ∧
    alookup (sweep_expired [("k", Json.null)] [("k", 0)] 600).2 "k" = some (0 : Int) :=
  ⟨by decide, rfl, rfl⟩

/-- C2 (amended): for every cache state with unique keys and every sweep
time, the sweep removes exactly the entries whose age is strictly greater
than the TTL: an entry with age > ttl is removed from both maps, an entry
with age ≤ ttl is untouched (in particular no fresh entry, age < ttl, is
ever removed), and a cache entry with no timestamp is untouched. -/
theorem sweep_removes_exactly_strictly_expired
    (cache : List (String × Json)) (ts : List (String × Int)) (now : Int)
    (hc : (cache.map Prod.fst).Nodup) (ht : (ts.map Prod.fst).Nodup) :
    (∀ k t, alookup ts k = some t → cache_ttl < now - t →
       alookup (sweep_expired cache ts now).1 k = none ∧
       alookup (sweep_expired cache ts now).2 k = none)
    ∧ (∀ k t, alookup ts k = some t → now - t ≤ cache_ttl →
       alookup (sweep_expired cache ts now).1 k = alookup cache k ∧
       alookup (sweep_expired cache ts now).2 k = alookup ts k)
    ∧ (∀ k, alookup ts k = none →
       alookup (sweep_expired cache ts now).1 k = alookup cache k ∧
       alookup (sweep_expired cache ts now).2 k = alookup ts k) := by
  refine ⟨?_, ?_, ?_⟩
  · intro k t hk hexp
    have hmem := mem_expiredKeys hk hexp
    exact ⟨alookup_eraseKeys_none hc (Or.inr hmem),
           alookup_eraseKeys_none ht (Or.inr hmem)⟩
  · intro k t hk hle
    have hnm := not_mem_expiredKeys ht hk hle
    exact ⟨alookup_eraseKeys_of_not_mem cache hnm,
           alookup_eraseKeys_of_not_mem ts hnm⟩
  · intro k hk
    have hnm := @not_mem_expiredKeys_of_none ts now k hk
    exact ⟨alookup_eraseKeys_of_not_mem cache hnm,
           alookup_eraseKeys_of_not_mem ts hnm⟩

/-- C2 witness: on a concrete two-entry cache at time 700, the entry of
age 700 is removed while the entry of age 200 survives, via
`sweep_removes_exactly_strictly_expired`. -/
theorem sweep_removes_exactly_strictly_expired_witness :
    alookup (sweep_expired [("a", Json.null), ("b", Json.bool true)]
        [("a", 0), ("b", 500)] 700).1 "a" = none ∧
    alookup (sweep_expired [("a", Json.null), ("b", Json.bool true)]
        [("a", 0), ("b", 500)] 700).1 "b" = some (Json.bool true) := by
  constructor
  · exact ((sweep_removes_exactly_strictly_expired
      [("a", Json.null), ("b", Json.bool true)] [("a", 0), ("b", 500)] 700
      (by decide) (by decide)).1 "a" 0 rfl (by decide)).1
  · have h := ((sweep_removes_exactly_strictly_expired
      [("a", Json.null), ("b", Json.bool true)] [("a", 0), ("b", 500)] 700
      (by decide) (by decide)).2.1 "b" 500 rfl (by decide)).1
    exact h.trans rfl

/-- C3: a document carrying a native `arrow.fields` array is translated
from that array exclusively (the output depends only on the array, so the
properties map is ignored even if present), one descriptor per entry in
array order; a document without it is translated from its properties map
in the map's iteration order, with integer/number/string mapping to
int64/float64/utf8; in both cases the output order is the source order
(the output is literally the in-order map over the chosen source). -/
theorem create_arrow_schema_priority_order :
    (∀ schema_json fieldsJ, arrowFieldsOf schema_json = some fieldsJ →
       create_arrow_schema schema_json = translateFieldList (jIterVals fieldsJ))
    ∧ (∀ kvs props, arrowFieldsOf (Json.obj kvs) = none →
       alookup kvs "properties" = some props →
       create_arrow_schema (Json.obj kvs) = translateProperties props)
    ∧ (∀ fs g, (∀ x ∈ fs, translateNativeField x = .ok (g x)) →
       translateFieldList fs = .ok (fs.map g))
    ∧ (∀ ps g, (∀ x ∈ ps, translateProp x = .ok (g x)) →
       translatePropList ps = .ok (ps.map g))
    ∧ mapPropKind "integer" = ArrowType.int64
    ∧ mapPropKind "number" = ArrowType.float64
    ∧ mapPropKind "string" = ArrowType.utf8 := by
  refine ⟨?_, ?_, translateFieldList_map_ok, translatePropList_map_ok, rfl, rfl, rfl⟩
  · intro j fj h
    simp only [create_arrow_schema, h]
  · intro kvs props hno hp
    simp only [create_arrow_schema, hno, jGetConst, hp]

/-- C3 witness: a document with both a native field list and a properties
map translates from the native list only, in order; a properties-only
document translates in map order, via `create_arrow_schema_priority_order`. -/
theorem create_arrow_schema_priority_order_witness :
    create_arrow_schema (Json.obj
      [("arrow", Json.obj [("fields", Json.arr
         [Json.obj [("name", Json.str "ts"),
                    ("type", Json.obj [("name", Json.str "timestamp"),
                                       ("unit", Json.str "ns")])],
          Json.obj [("name", Json.str "px"),
                    ("type", Json.obj [("name", Json.str "float64")])]])]),
       ("properties", Json.obj [("qty", Json.obj [("type", Json.str "integer")])])]) =
      .ok [⟨"ts", ArrowType.timestampT TimeUnit.nano⟩, ⟨"px", ArrowType.float64⟩] ∧
    create_arrow_schema (Json.obj
      [("properties", Json.obj [("qty", Json.obj [("type", Json.str "integer")]),
                                ("sym", Json.obj [("type", Json.str "string")])])]) =
      .ok [⟨"qty", ArrowType.int64⟩, ⟨"sym", ArrowType.utf8⟩] := by
  constructor
  · have h := (create_arrow_schema_priority_order).1 (Json.obj
      [("arrow", Json.obj [("fields", Json.arr
         [Json.obj [("name", Json.str "ts"),
                    ("type", Json.obj [("name", Json.str "timestamp"),
                                       ("unit", Json.str "ns")])],
          Json.obj [("name", Json.str "px"),
                    ("type", Json.obj [("name", Json.str "float64")])]])]),
       ("properties", Json.obj [("qty", Json.obj [("type", Json.str "integer")])])])
      (Json.arr
         [Json.obj [("name", Json.str "ts"),
                    ("type", Json.obj [("name", Json.str "timestamp"),
                                       ("unit", Json.str "ns")])],
          Json.obj [("name", Json.str "px"),
                    ("type", Json.obj [("name", Json.str "float64")])]]) rfl
    exact h.trans rfl
  · have h := (create_arrow_schema_priority_order).2.1
      [("properties", Json.obj [("qty", Json.obj [("type", Json.str "integer")]),
                                ("sym", Json.obj [("type", Json.str "string")])])]
      (Json.obj [("qty", Json.obj [("type", Json.str "integer")]),
                 ("sym", Json.obj [("type", Json.str "string")])]) rfl rfl
    exact h.trans rfl

/-- C4 counterexample: a native timestamp field with NO unit key yields
the microsecond time unit, not seconds — the source defaults the unit
hint to "us" (`field_type.value("unit", "us")`), so the claim "absence of
a recognized unit yields seconds" fails for a missing unit. -/
theorem timestamp_missing_unit_micro :
    mapTypeName "timestamp" (Json.obj [("name", Json.str "timestamp")]) =
      .ok (ArrowType.timestampT TimeUnit.micro) ∧
    TimeUnit.micro ≠ TimeUnit.second :=
  ⟨rfl, by decide⟩

/-- C4 (amended): for a native timestamp field, a unit of "us" yields
microseconds and "ns" yields nanoseconds; a MISSING unit defaults to "us",
i.e. microseconds; only a present but unrecognized unit yields seconds. -/
theorem timestamp_unit_mapping (tkvs : List (String × Json)) :
    (alookup tkvs "unit" = none →
       mapTypeName "timestamp" (Json.obj tkvs) =
         .ok (ArrowType.timestampT TimeUnit.micro))
    ∧ (alookup tkvs "unit" = some (Json.str "us") →
       mapTypeName "timestamp" (Json.obj tkvs) =
         .ok (ArrowType.timestampT TimeUnit.micro))
    ∧ (alookup tkvs "unit" = some (Json.str "ns") →
       mapTypeName "timestamp" (Json.obj tkvs) =
         .ok (ArrowType.timestampT TimeUnit.nano))
    ∧ (∀ u, alookup tkvs "unit" = some (Json.str u) → u ≠ "us" → u ≠ "ns" →
       mapTypeName "timestamp" (Json.obj tkvs) =
         .ok (ArrowType.timestampT TimeUnit.second)) := by
  refine ⟨?_, ?_, ?_, ?_⟩
  · intro h; simp [mapTypeName, valueStr, h]
  · intro h; simp [mapTypeName, valueStr, h]
  · intro h; simp [mapTypeName, valueStr, h]
  · intro u h hus hns; simp [mapTypeName, valueStr, h, hus, hns]

/-- C4 witness: concrete unit hints "ns" (nanoseconds) and "min"
(unrecognized, seconds) via `timestamp_unit_mapping`. -/
theorem timestamp_unit_mapping_witness :
    mapTypeName "timestamp" (Json.obj [("unit", Json.str "ns")]) =
      .ok (ArrowType.timestampT TimeUnit.nano) ∧
    mapTypeName "timestamp" (Json.obj [("unit", Json.str "min")]) =
      .ok (ArrowType.timestampT TimeUnit.second) := by
  constructor
  · exact (timestamp_unit_mapping [("unit", Json.str "ns")]).2.2.1 rfl
  · exact (timestamp_unit_mapping [("unit", Json.str "min")]).2.2.2 "min" rfl
      (by decide) (by decide)

/-- C5 counterexample: a parsed 200 response body that LACKS the
top-level "schema" field does not fail — the non-const
`response_json["schema"]` inserts and returns null, so the fetch succeeds
carrying the null document, contradicting the claimed
MalformedResponse error. -/
theorem missing_schema_field_yields_null_success :
    processResponse (NetOutcome.response 200 (some (Json.obj []))) = .ok Json.null ∧
    ¬ ∃ e, processResponse (NetOutcome.response 200 (some (Json.obj []))) =
      .error e := by
  refine ⟨rfl, ?_⟩
  rintro ⟨e, he⟩
  rw [show processResponse (NetOutcome.response 200 (some (Json.obj []))) =
    .ok Json.null from rfl] at he
  exact Except.noConfusion he

/-- C5 (amended): an unparsable 200 response body fails with a parse
error; but a parsed object body lacking the top-level "schema" field
succeeds carrying the null document (and a body with the field succeeds
carrying its value) — the missing-field case is not an error. -/
theorem processResponse_malformed_behavior :
    processResponse (NetOutcome.response 200 none) = .error FetchError.parseFailure
    ∧ (∀ kvs, alookup kvs "schema" = none →
       processResponse (NetOutcome.response 200 (some (Json.obj kvs))) = .ok Json.null)
    ∧ (∀ kvs d, alookup kvs "schema" = some d →
       processResponse (NetOutcome.response 200 (some (Json.obj kvs))) = .ok d) := by
  refine ⟨rfl, ?_, ?_⟩
  · intro kvs h
    simp [processResponse, jGetMutOpt, h]
  · intro kvs d h
    simp [processResponse, jGetMutOpt, h]

/-- C5 witness: concrete bodies without and with the "schema" field via
`processResponse_malformed_behavior`. -/
theorem processResponse_malformed_behavior_witness :
    processResponse (NetOutcome.response 200 (some (Json.obj [("x", Json.null)]))) =
      .ok Json.null ∧
    processResponse (NetOutcome.response 200 (some (Json.obj [("schema", Json.num 3)]))) =
      .ok (Json.num 3) := by
  constructor
  · exact (processResponse_malformed_behavior).2.1 [("x", Json.null)] rfl
  · exact (processResponse_malformed_behavior).2.2 [("schema", Json.num 3)] (Json.num 3) rfl

/-- C6: with zero requests issued (hits = misses = 0) the statistics
snapshot's hit ratio is the unguarded double division 0.0/0.0, i.e. IEEE
NaN (modelled as `none`) — the source does NOT special-case the division,
so the ratio is not 0 as the spec claims. -/
theorem hit_rate_zero_requests_nan :
    (get_stats ⟨[], [], 0, 0, 0⟩).cache_hit_rate = none ∧ some (0 : ℚ) ≠ none :=
  ⟨rfl, by simp⟩

/-- C7: when the fetch fails (curl init failure, transport failure,
non-200 status, or unparsable body) on the miss path, the error
propagates unchanged to the caller and both cache maps are unchanged —
only the miss/fetch counters move, so a later call for the same key goes
to the network again. -/
theorem fetch_error_propagates_cache_unchanged (s : ClientState) (now : Int)
    (net : NetOutcome) (schema_id version : String) (e : FetchError)
    (he : processResponse net = .error e)
    (hm : missRead s (cache_key schema_id version) now) :
    fetch_schema s now net schema_id version =
      (.error e,
       { s with cacheMisses := s.cacheMisses + 1,
                schemaFetches := s.schemaFetches + 1 })
    ∧ (fetch_schema s now net schema_id version).2.schemaCache = s.schemaCache
    ∧ (fetch_schema s now net schema_id version).2.cacheTimestamps = s.cacheTimestamps := by
  have h1 : fetch_schema s now net schema_id version =
      (.error e,
       { s with cacheMisses := s.cacheMisses + 1,
                schemaFetches := s.schemaFetches + 1 }) := by
    rw [fetch_schema_miss s now net schema_id version hm]
    simp [doFetch, he]
  exact ⟨h1, by rw [h1], by rw [h1]⟩

/-- C7 witness: a concrete transport failure on an empty cache propagates
and leaves the maps empty, via `fetch_error_propagates_cache_unchanged`. -/
theorem fetch_error_propagates_cache_unchanged_witness :
    fetch_schema ⟨[], [], 0, 0, 0⟩ 5 NetOutcome.performFail "a" "" =
      (.error FetchError.transportFailure, ⟨[], [], 0, 1, 1⟩) :=
  (fetch_error_propagates_cache_unchanged ⟨[], [], 0, 0, 0⟩ 5 NetOutcome.performFail
    "a" "" FetchError.transportFailure rfl (Or.inl rfl)).1

/-- C8 counterexample: translation is NOT total — a document with neither
a native field list nor a "properties" key hits undefined behavior
(const `operator[]` on a missing key), and a property entry whose value
lacks a string "type" throws a type error. -/
theorem create_arrow_schema_not_total :
    create_arrow_schema (Json.obj []) = .error TransError.undefinedBehavior ∧
    create_arrow_schema (Json.obj [("properties", Json.obj [("q", Json.obj [])])]) =
      .error TransError.typeError :=
  ⟨rfl, rfl⟩

/-- C8 (amended): translation is pure and returns an ordered field
sequence on every WELL-FORMED document — one whose native field entries
each have a string name and an object type with a string name and an
absent-or-string unit, or (without a native list) whose properties map's
entries each have a string "type"; a document with neither source, or
with a mistyped entry, fails instead of degrading. -/
theorem create_arrow_schema_total_on_wellformed (schema_json : Json) :
    (∀ fieldsJ, arrowFieldsOf schema_json = some fieldsJ →
       (∀ x ∈ jIterVals fieldsJ, wfNativeField x = true) →
       ∃ fs, create_arrow_schema schema_json = .ok fs)
    ∧ (∀ kvs pkvs, schema_json = Json.obj kvs →
       arrowFieldsOf schema_json = none →
       alookup kvs "properties" = some (Json.obj pkvs) →
       (∀ x ∈ pkvs, wfProp x = true) →
       ∃ fs, create_arrow_schema schema_json = .ok fs) := by
  constructor
  · intro fj hf hwf
    obtain ⟨ds, hds⟩ := translateFieldList_ok_of_wf (jIterVals fj) hwf
    exact ⟨ds, by simp only [create_arrow_schema, hf, hds]⟩
  · intro kvs pkvs hj hno hp hwf
    obtain ⟨ds, hds⟩ := translatePropList_ok_of_wf pkvs hwf
    subst hj
    exact ⟨ds, by simp only [create_arrow_schema, hno, jGetConst, hp,
      translateProperties, hds]⟩

/-- C8 witness: a concrete well-formed properties-only document
translates successfully, via `create_arrow_schema_total_on_wellformed`. -/
theorem create_arrow_schema_total_on_wellformed_witness :
    ∃ fs, create_arrow_schema (Json.obj [("properties", Json.obj
      [("qty", Json.obj [("type", Json.str "integer")])])]) = .ok fs :=
  (create_arrow_schema_total_on_wellformed (Json.obj [("properties", Json.obj
      [("qty", Json.obj [("type", Json.str "integer")])])])).2
    [("properties", Json.obj [("qty", Json.obj [("type", Json.str "integer")])])]
    [("qty", Json.obj [("type", Json.str "integer")])] rfl rfl rfl (by decide)

/-- C9: a native type name outside the recognized table
int32/int64/float32/float64/utf8/timestamp (the last spelled
"utf8-string" in the spec), and a generic property kind outside
integer/number/string, both translate to the string logical type (utf8),
never an error. -/
theorem unrecognized_type_defaults_to_utf8 :
    (∀ (type_name : String) (field_type : Json),
       type_name ∉ ["int32", "int64", "float32", "float64", "utf8", "timestamp"] →
       mapTypeName type_name field_type = .ok ArrowType.utf8)
    ∧ (∀ json_type : String, json_type ∉ ["integer", "number", "string"] →
       mapPropKind json_type = ArrowType.utf8) := by
  constructor
  · intro tn ft h
    simp only [List.mem_cons, List.not_mem_nil, or_false, not_or] at h
    obtain ⟨h1, h2, h3, h4, h5, h6⟩ := h
    simp [mapTypeName, h1, h2, h3, h4, h5, h6]
  · intro jt h
    simp only [List.mem_cons, List.not_mem_nil, or_false, not_or] at h
    obtain ⟨h1, h2, h3⟩ := h
    simp [mapPropKind, h1, h2, h3]

/-- C9 witness: the unrecognized type name "decimal" and the unrecognized
kind "object" both default to utf8, via `unrecognized_type_defaults_to_utf8`. -/
theorem unrecognized_type_defaults_to_utf8_witness :
    mapTypeName "decimal" Json.null = .ok ArrowType.utf8 ∧
    mapPropKind "object" = ArrowType.utf8 :=
  ⟨(unrecognized_type_defaults_to_utf8).1 "decimal" Json.null (by decide),
   (unrecognized_type_defaults_to_utf8).2 "object" (by decide)⟩

/-- C10: the cache key is the identifier concatenated with ":" and the
version when a (non-empty) version is supplied, the bare identifier
otherwise; for a fixed identifier the omitted-version key differs from
every specific-version key; but the key function is not injective across
pairs: (id = "a:b", no version) and (id = "a", version = "b") share one
key. -/
theorem cache_key_shape_and_collision :
    (∀ schema_id version : String,
       cache_key schema_id version =
         schema_id ++ (if version = "" then "" else ":" ++ version))
    ∧ (∀ schema_id version : String, version ≠ "" →
       cache_key schema_id "" ≠ cache_key schema_id version)
    ∧ cache_key "a:b" "" = cache_key "a" "b"
    ∧ ("a:b", "") ≠ (("a", "b") : String × String) := by
  refine ⟨fun _ _ => rfl, ?_, rfl, by decide⟩
  intro schema_id version hv heq
  have h1 : cache_key schema_id "" = schema_id := by simp [cache_key]
  have h2 : cache_key schema_id version = schema_id ++ (":" ++ version) := by
    simp [cache_key, hv]
  rw [h1, h2] at heq
  have hlen := congrArg String.length heq
  rw [String.length_append, String.length_append] at hlen
  have hone : (":" : String).length = 1 := rfl
  omega

/-- C10 witness: for identifier "x", the omitted-version key differs from
the key for version "1", via `cache_key_shape_and_collision`. -/
theorem cache_key_shape_and_collision_witness :
    cache_key "x" "" ≠ cache_key "x" "1" :=
  (cache_key_shape_and_collision).2.1 "x" "1" (by decide)

end SchemaRegistry
